import Mathlib

/-!
# Verification of the modumb acoustic-modem protocol stack

Shallow embedding of the frame layer (`src/modumb/datalink/frame.py`), the
framer reorder queue (`src/modumb/datalink/framer.py`), the Stop-and-Wait
transport (`src/modumb/transport/reliable.py`), the session layer
(`src/modumb/transport/session.py`) and the demodulator entry guard
(`src/modumb/modem/afsk.py`), together with proofs of the specified
properties.

Bytes are modelled as `Nat` (with explicit `&&& 0xFFFF` masks where the
Python code masks); byte strings are `List Nat`.  Fallible Python code
(`Frame.decode`, whose `Frame` constructor can raise `ValueError`) is
modelled in `Except Unit`: `.error ()` marks an uncaught Python exception,
`.ok none` marks the `return None` paths.
-/

namespace Modumb

/-- Decidable equality for `Except`, used to evaluate decoder results. -/
instance {ε α : Type} [DecidableEq ε] [DecidableEq α] : DecidableEq (Except ε α) :=
  fun a b =>
    match a, b with
    | .ok x, .ok y =>
      if h : x = y then isTrue (by rw [h]) else isFalse (fun hh => h (Except.ok.inj hh))
    | .error x, .error y =>
      if h : x = y then isTrue (by rw [h]) else isFalse (fun hh => h (Except.error.inj hh))
    | .ok _, .error _ => isFalse (fun hh => Except.noConfusion hh)
    | .error _, .ok _ => isFalse (fun hh => Except.noConfusion hh)

/-! ## CRC-16-CCITT (frame.py fallback `crc16_func`, poly 0x1021, init 0xFFFF) -/

/-- One shift-and-conditionally-xor round of the CRC inner loop
(`if crc & 0x8000: crc = (crc << 1) ^ 0x1021 else crc <<= 1; crc &= 0xFFFF`). -/
def crcRound (crc : Nat) : Nat :=
  (if crc &&& 0x8000 ≠ 0 then (crc <<< 1) ^^^ 0x1021 else crc <<< 1) &&& 0xFFFF

/-- Absorb one byte: `crc ^= byte << 8` followed by 8 rounds. -/
def crc16Step (crc byte : Nat) : Nat :=
  crcRound^[8] (crc ^^^ (byte <<< 8))

/-- `crc16_func(data)`: fold over the bytes starting from 0xFFFF. -/
def crc16 (data : List Nat) : Nat := data.foldl crc16Step 0xFFFF

/-! ## Frame constants and types (frame.py) -/

def PREAMBLE : List Nat :=
  [0xAA, 0xAA, 0xAA, 0xAA, 0xAA, 0xAA, 0xAA, 0xAA,
   0xAA, 0xAA, 0xAA, 0xAA, 0xAA, 0xAA, 0xAA, 0xAA]

def SYNC : List Nat := [0x7E, 0x7E]

def MAX_PAYLOAD_SIZE : Nat := 64

def ESCAPE_BYTE : Nat := 0x7D

def FLAG_BYTE : Nat := 0x7E

/-- The seven frame kinds of `class FrameType(IntEnum)`. -/
inductive FrameType where
  | data
  | ack
  | nak
  | syn
  | synAck
  | fin
  | rst
deriving DecidableEq, Repr

/-- Numeric codes of the frame types. -/
def FrameType.code : FrameType → Nat
  | .data => 0x01
  | .ack => 0x02
  | .nak => 0x03
  | .syn => 0x10
  | .synAck => 0x11
  | .fin => 0x12
  | .rst => 0x13

/-- `FrameType(n)` with the `ValueError` for undefined codes mapped to `none`. -/
def FrameType.ofCode (n : Nat) : Option FrameType :=
  if n = 0x01 then some .data
  else if n = 0x02 then some .ack
  else if n = 0x03 then some .nak
  else if n = 0x10 then some .syn
  else if n = 0x11 then some .synAck
  else if n = 0x12 then some .fin
  else if n = 0x13 then some .rst
  else none

/-- Membership test for the `valid_types` set used by the tolerant sync scan
and the 2-bit corrector. -/
def validTypeCode (n : Nat) : Bool :=
  n = 0x01 || n = 0x02 || n = 0x03 || n = 0x10 || n = 0x11 || n = 0x12 || n = 0x13

/-- `@dataclass class Frame` (the `__post_init__` validation is modelled
separately in `mkFrame`, since constructing an invalid frame raises). -/
structure Frame where
  frameType : FrameType
  sequence : Nat
  payload : List Nat
deriving DecidableEq, Repr

/-- `Frame(...)` including the `__post_init__` checks: payload at most
`MAX_PAYLOAD_SIZE` bytes and sequence in [0, 0xFFFF], else `ValueError`. -/
def mkFrame (t : FrameType) (seq : Nat) (payload : List Nat) : Except Unit Frame :=
  if payload.length > MAX_PAYLOAD_SIZE then .error ()
  else if seq > 0xFFFF then .error ()
  else .ok ⟨t, seq, payload⟩

/-! ## Byte stuffing (frame.py `_byte_stuff` / `_byte_unstuff`) -/

/-- HDLC-style byte stuffing: escape 0x7E and 0x7D as `0x7D, b ^ 0x20`. -/
def byteStuff : List Nat → List Nat
  | [] => []
  | b :: rest =>
    if b = FLAG_BYTE ∨ b = ESCAPE_BYTE then
      ESCAPE_BYTE :: (b ^^^ 0x20) :: byteStuff rest
    else
      b :: byteStuff rest

/-- Remove byte stuffing: `0x7D` followed by some byte `x` yields `x ^ 0x20`;
a trailing lone `0x7D` (no following byte) is kept literally. -/
def byteUnstuff : List Nat → List Nat
  | [] => []
  | [b] => [b]
  | b :: x :: rest =>
    if b = ESCAPE_BYTE then (x ^^^ 0x20) :: byteUnstuff rest
    else b :: byteUnstuff (x :: rest)

/-! ## Frame encoding (frame.py `Frame.encode`) -/

/-- `struct.pack('<H', v)`: two little-endian bytes (pack would raise above
0xFFFF; the callers only pass in-range values, so the mask is harmless). -/
def le16 (v : Nat) : List Nat := [v % 256, v / 256 % 256]

/-- Frame content `TYPE + SEQ + LENGTH + PAYLOAD` (`struct.pack('<BHH', ...)`). -/
def Frame.content (f : Frame) : List Nat :=
  f.frameType.code :: (le16 f.sequence ++ le16 f.payload.length ++ f.payload)

/-- `Frame.encode`: preamble, sync, then the byte-stuffed content plus CRC. -/
def Frame.encode (f : Frame) : List Nat :=
  PREAMBLE ++ SYNC ++ byteStuff (f.content ++ le16 (crc16 f.content))

/-! ## Frame start search (frame.py `Frame._find_frame_start`) -/

/-- `data.find(SYNC)`: index of the first occurrence of `0x7E 0x7E`. -/
def findSyncAux : List Nat → Nat → Option Nat
  | a :: b :: t, i =>
    if a = 0x7E ∧ b = 0x7E then some i else findSyncAux (b :: t) (i + 1)
  | _, _ => none

def findSyncIdx (data : List Nat) : Option Nat := findSyncAux data 0

/-- `bin(byte).count('1')`. -/
def popcount (n : Nat) : Nat :=
  if n = 0 then 0 else n % 2 + popcount (n / 2)
decreasing_by exact Nat.div_lt_self (Nat.pos_of_ne_zero (by assumption)) one_lt_two

/-- Preamble-likeness score of the window `data[max(0, i-6) : i]`:
count of bytes whose popcount lies in [3, 5]. -/
def preambleScore (data : List Nat) (i : Nat) : Nat :=
  (((data.drop (i - 6)).take (i - (i - 6))).countP
    fun b => decide (3 ≤ popcount b) && decide (popcount b ≤ 5))

/-- One candidate index of the tolerant scan: accept `i + 2` when the score
is at least 3, `i + 2` is in range, and the byte there is a valid type. -/
def tolerantCheck (data : List Nat) (i : Nat) : Option Nat :=
  if 3 ≤ preambleScore data i then
    if i + 2 < data.length then
      if validTypeCode (data.getD (i + 2) 0) then some (i + 2) else none
    else none
  else none

/-- `Frame._find_frame_start`: exact sync search first, then the tolerant
scan over `range(4, len(data) - 7)`; `none` models the `-1` failure. -/
def findFrameStart (data : List Nat) : Option Nat :=
  match findSyncIdx data with
  | some p => some (p + 2)
  | none => (List.range' 4 (data.length - 7 - 4)).findSome? (tolerantCheck data)

/-! ## Error correction (frame.py `_try_correct_1bit` / `_try_correct_2bit`) -/

/-- Flip bit `bitPos % 8` of byte `bitPos / 8`. -/
def flipBit (d : List Nat) (bitPos : Nat) : List Nat :=
  d.set (bitPos / 8) (d.getD (bitPos / 8) 0 ^^^ (1 <<< (bitPos % 8)))

/-- `struct.unpack('<H', d[i:i+2])[0]` (callers guarantee the 2 bytes exist). -/
def sliceLE16 (d : List Nat) (i : Nat) : Nat :=
  ((d.drop i).take 2).getD 0 0 + 256 * ((d.drop i).take 2).getD 1 0

/-- `Frame._try_correct_1bit`: flip each bit in turn and accept the first
flip whose content CRC matches the trailing stored CRC. -/
def tryCorrect1bit (frameData : List Nat) (contentLen : Nat) : Option (List Nat) :=
  (List.range (frameData.length * 8)).findSome? fun bitPos =>
    let d := flipBit frameData bitPos
    if crc16 (d.take contentLen) = sliceLE16 d contentLen then some d else none

/-- `Frame._try_correct_2bit`: flip each ordered pair of bits `i < j` over
content+CRC; accept when the CRC matches and the type byte stays valid. -/
def tryCorrect2bit (frameData : List Nat) (contentLen : Nat) : Option (List Nat) :=
  let totalBits := (contentLen + 2) * 8
  (List.range totalBits).findSome? fun i =>
    (List.range' (i + 1) (totalBits - (i + 1))).findSome? fun j =>
      let d := flipBit (flipBit frameData i) j
      if crc16 (d.take contentLen) = sliceLE16 d contentLen ∧ validTypeCode (d.getD 0 0) then
        some d
      else none

/-! ## Frame decoding (frame.py `Frame.decode`) -/

/-- Final step of `Frame.decode`: validate the type (its `ValueError` is
caught, giving `None`), then construct the frame (`__post_init__` may raise). -/
def finishDecode (ftCode seq : Nat) (payload : List Nat) : Except Unit (Option Frame) :=
  match FrameType.ofCode ftCode with
  | none => .ok none
  | some t => (mkFrame t seq payload).map some

/-- Rebuild the result from a corrected frame.  The code re-reads type and
sequence from the corrected bytes but keeps the payload slice taken with the
pre-correction `length`; the embedding mirrors that. -/
def finishCorrected (corrected : List Nat) (length : Nat) : Except Unit (Option Frame) :=
  finishDecode (corrected.getD 0 0)
    ((corrected.take 5).getD 1 0 + 256 * (corrected.take 5).getD 2 0)
    ((corrected.drop 5).take length)

/-- CRC-mismatch path of `Frame.decode`: 1-bit correction, then 2-bit
correction, then give up. -/
def correctAndFinish (frameData : List Nat) (length : Nat) : Except Unit (Option Frame) :=
  match tryCorrect1bit frameData (5 + length) with
  | some corrected => finishCorrected corrected length
  | none =>
    match tryCorrect2bit frameData (5 + length) with
    | some corrected => finishCorrected corrected length
    | none => .ok none

/-- `Frame.decode` after byte unstuffing: header parse, length checks,
CRC verification and the correction fallback. -/
def decodeUnstuffed (unstuffed : List Nat) : Except Unit (Option Frame) :=
  if unstuffed.length < 7 then .ok none
  else
    let hdr := unstuffed.take 5
    let ftCode := hdr.getD 0 0
    let seq := hdr.getD 1 0 + 256 * hdr.getD 2 0
    let length := hdr.getD 3 0 + 256 * hdr.getD 4 0
    if length > MAX_PAYLOAD_SIZE then .ok none
    else if unstuffed.length < 5 + length + 2 then .ok none
    else
      let payload := (unstuffed.drop 5).take length
      let receivedCrc := sliceLE16 unstuffed (5 + length)
      let computedCrc := crc16 (unstuffed.take (5 + length))
      if receivedCrc ≠ computedCrc then
        correctAndFinish (unstuffed.take (5 + length + 2)) length
      else finishDecode ftCode seq payload

/-- `Frame.decode` from the slice that starts at the frame content:
minimum-length check, then unstuffing. -/
def decodeFrom (d : List Nat) : Except Unit (Option Frame) :=
  if d.length < 7 then .ok none
  else decodeUnstuffed (byteUnstuff d)

/-- `Frame.decode` — `.ok none` models `return None`, `.error ()` an
uncaught Python exception. -/
def Frame.decode (data : List Nat) : Except Unit (Option Frame) :=
  match findFrameStart data with
  | none => .ok none
  | some contentStart => decodeFrom (data.drop contentStart)


/-! ## Framer reorder queue (framer.py `Framer.wait_for_frame`, lines 179-194)

`wait_for_frame` first scans the FIFO `_rx_queue`: frames are popped one by
one; non-matching ones are collected in `queued`; on a match the collected
frames are re-`put` (appended at the tail, after whatever was left in the
queue) and the match returned; if the queue empties without a match the
collected frames are re-appended in order.  The scan is modelled as a pure
function from the queue content (front first) to the result and the new
queue content. -/

/-- `Framer._frame_matches`: optional type and sequence filters. -/
def frameMatches (f : Frame) (expectedType : Option FrameType) (expectedSeq : Option Nat) :
    Bool :=
  (match expectedType with
   | none => true
   | some t => decide (f.frameType = t)) &&
  (match expectedSeq with
   | none => true
   | some s => decide (f.sequence = s))

/-- The queue-scan loop of `wait_for_frame`: `queued` accumulates popped
non-matching frames; `put` appends at the tail. -/
def scanQueueGo (matchesP : Frame → Bool) :
    List Frame → List Frame → Option Frame × List Frame
  | queued, [] => (none, queued)
  | queued, f :: rest =>
    if matchesP f then (some f, rest ++ queued)
    else scanQueueGo matchesP (queued ++ [f]) rest

/-- Scan the reorder queue for the first matching frame; returns the match
(if any) and the queue contents seen by the next consumer. -/
def waitScanQueue (matchesP : Frame → Bool) (queue : List Frame) :
    Option Frame × List Frame :=
  scanQueueGo matchesP [] queue

/-! ## Stop-and-Wait transport (reliable.py `ReliableTransport`) -/

/-- `TransportStats` dataclass (all counters start at 0). -/
structure TransportStats where
  framesSent : Nat
  framesReceived : Nat
  retransmissions : Nat
  timeouts : Nat
  ackReceived : Nat
  nakReceived : Nat
deriving DecidableEq, Repr

def TransportStats.mkZero : TransportStats := ⟨0, 0, 0, 0, 0, 0⟩

/-- The retry loop of `_send_fragment` (lines 112-142).  Each loop iteration
transmits the frame and then consumes one result of
`wait_for_frame(timeout=...)`; the response trace supplies those results in
order (`none` = timeout), with an exhausted trace acting as timeouts.
Returns the success flag and the final statistics. -/
def sendFragmentGo (seq : Nat) :
    Nat → Nat → List (Option Frame) → TransportStats → Bool × TransportStats
  | _, 0, _, stats => (false, stats)
  | attempt, attemptsLeft + 1, responses, stats =>
    let stats1 :=
      { stats with
        framesSent := stats.framesSent + 1
        retransmissions :=
          if 0 < attempt then stats.retransmissions + 1 else stats.retransmissions }
    match responses.headD none with
    | none =>
      sendFragmentGo seq (attempt + 1) attemptsLeft responses.tail
        { stats1 with timeouts := stats1.timeouts + 1 }
    | some f =>
      if f.frameType = .ack then
        if f.sequence = seq then
          (true, { stats1 with ackReceived := stats1.ackReceived + 1 })
        else
          sendFragmentGo seq (attempt + 1) attemptsLeft responses.tail stats1
      else if f.frameType = .nak then
        sendFragmentGo seq (attempt + 1) attemptsLeft responses.tail
          { stats1 with nakReceived := stats1.nakReceived + 1 }
      else if f.frameType = .rst then (false, stats1)
      else
        sendFragmentGo seq (attempt + 1) attemptsLeft responses.tail stats1

/-- `_send_fragment(seq, ...)` with `retries` as configured: up to
`retries + 1` attempts. -/
def sendFragment (seq retries : Nat) (responses : List (Option Frame))
    (stats : TransportStats) : Bool × TransportStats :=
  sendFragmentGo seq 0 (retries + 1) responses stats

/-- Transport state touched by the session layer: the two 16-bit sequence
counters and the statistics. -/
structure ReliableTransport where
  txSeq : Nat
  rxSeq : Nat
  stats : TransportStats
deriving DecidableEq, Repr

/-- `ReliableTransport.reset`: both counters to 0, fresh statistics. -/
def ReliableTransport.reset (_ : ReliableTransport) : ReliableTransport :=
  ⟨0, 0, TransportStats.mkZero⟩

/-! ## Session layer (session.py `Session`) -/

/-- `SessionState` enumeration. -/
inductive SessionState where
  | closed
  | synSent
  | synReceived
  | established
  | finWait
  | closeWait
  | lastAck
  | timeWait
deriving DecidableEq, Repr

/-- `Session.send` (lines 165-177): the transport call is abstracted as a
state transformer; the final `Bool` records whether it was invoked.  Returns
(result, session state after, transport state after, invoked). -/
def sessionSend {τ : Type} (state : SessionState) (transportSend : τ → τ × Bool)
    (tr : τ) : Bool × SessionState × τ × Bool :=
  if state ≠ SessionState.established then (false, state, tr, false)
  else ((transportSend tr).2, state, (transportSend tr).1, true)

/-- `Session.receive` (lines 179-191), analogously. -/
def sessionReceive {τ : Type} (state : SessionState)
    (transportReceive : τ → τ × Option (List Nat)) (tr : τ) :
    Option (List Nat) × SessionState × τ × Bool :=
  if state ≠ SessionState.established then (none, state, tr, false)
  else ((transportReceive tr).2, state, (transportReceive tr).1, true)

/-- The retry loop of `Session.connect` (lines 78-109).  Each attempt sends
SYN (entering SYN_SENT) and waits for SYN_ACK; `wait_for_frame` filters on
the type, so the trace only records whether a SYN_ACK arrived in time.  On
success the state becomes ESTABLISHED and the transport is reset; on
exhaustion the state is set back to CLOSED. -/
def connectGo : Nat → List Bool → ReliableTransport →
    Bool × SessionState × ReliableTransport
  | 0, _, tr => (false, .closed, tr)
  | attemptsLeft + 1, responses, tr =>
    if responses.headD false then (true, .established, tr.reset)
    else connectGo attemptsLeft responses.tail tr

/-- `Session.connect`: refuse unless CLOSED, then run the handshake loop
(`handshake_retries` attempts). -/
def sessionConnect (handshakeRetries : Nat) (state : SessionState)
    (responses : List Bool) (tr : ReliableTransport) :
    Bool × SessionState × ReliableTransport :=
  if state ≠ SessionState.closed then (false, state, tr)
  else connectGo handshakeRetries responses tr

/-- `Session.accept` (lines 111-163): refuse unless CLOSED; wait for SYN
(`gotSyn`); on SYN enter SYN_RECEIVED, send SYN_ACK and wait for ACK
(`gotAck`); on ACK become ESTABLISHED and reset the transport, else fall
back to CLOSED. -/
def sessionAccept (state : SessionState) (gotSyn gotAck : Bool)
    (tr : ReliableTransport) : Bool × SessionState × ReliableTransport :=
  if state ≠ SessionState.closed then (false, state, tr)
  else if gotSyn then
    if gotAck then (true, .established, tr.reset)
    else (false, .closed, tr)
  else (false, state, tr)

/-! ## Demodulator entry guard (afsk.py `AFSKDemodulator.demodulate`)

The body of `demodulate` is floating-point signal processing (envelopes,
alignment search, clock recovery) and is not embedded; it is abstracted as
an arbitrary `pipeline` function, so every theorem about the guard holds
for every possible body.  The guard itself (line 550) is translated
exactly: buffers shorter than `samples_per_bit * 8` yield `b''`. -/

/-- Demodulator parameters; `samples_per_bit = sample_rate // baud_rate`. -/
structure AFSKDemodulator where
  sampleRate : Nat
  markFreq : Nat
  spaceFreq : Nat
  baudRate : Nat

def AFSKDemodulator.samplesPerBit (d : AFSKDemodulator) : Nat :=
  d.sampleRate / d.baudRate

/-- `AFSKDemodulator.demodulate` with the DSP body abstracted as
`pipeline`; samples are kept abstract (`α` stands for the float samples). -/
def AFSKDemodulator.demodulate {α : Type} (d : AFSKDemodulator)
    (pipeline : List α → List Nat) (samples : List α) : List Nat :=
  if samples.length < d.samplesPerBit * 8 then [] else pipeline samples

/-! ## Shared lemmas: byte stuffing -/

/-- Unstuffing inverts stuffing. -/
theorem byteUnstuff_byteStuff : ∀ l : List Nat, byteUnstuff (byteStuff l) = l
  | [] => rfl
  | b :: rest => by
    by_cases hb : b = FLAG_BYTE ∨ b = ESCAPE_BYTE
    · rw [byteStuff, if_pos hb, byteUnstuff, if_pos rfl, Nat.xor_assoc,
        Nat.xor_self, Nat.xor_zero, byteUnstuff_byteStuff rest]
    · have hbne : ¬ b = ESCAPE_BYTE := fun h => hb (Or.inr h)
      rw [byteStuff, if_neg hb]
      match rest with
      | [] => rw [byteStuff, byteUnstuff]
      | r :: t =>
        obtain ⟨y, ys, hy⟩ : ∃ y ys, byteStuff (r :: t) = y :: ys := by
          rw [byteStuff]; split
          · exact ⟨_, _, rfl⟩
          · exact ⟨_, _, rfl⟩
        rw [hy, byteUnstuff, if_neg hbne, ← hy, byteUnstuff_byteStuff (r :: t)]

/-- Stuffing never shrinks a byte string. -/
theorem length_le_byteStuff : ∀ l : List Nat, l.length ≤ (byteStuff l).length
  | [] => Nat.le_refl 0
  | b :: rest => by
    rw [byteStuff]
    split
    · simpa using Nat.le_succ_of_le
        (Nat.succ_le_succ (length_le_byteStuff rest))
    · simpa using Nat.succ_le_succ (length_le_byteStuff rest)

/-! ## Shared lemmas: little-endian 16-bit fields, CRC range, sync search -/

/-- Parsing the two little-endian bytes of an in-range value restores it. -/
theorem le16_parse {v : Nat} (h : v < 65536) : v % 256 + 256 * (v / 256 % 256) = v := by
  have hd : v / 256 < 256 := Nat.div_lt_of_lt_mul (by omega)
  rw [Nat.mod_eq_of_lt hd, Nat.mod_add_div]

/-- Each CRC round masks to 16 bits. -/
theorem crcRound_lt (c : Nat) : crcRound c < 65536 :=
  Nat.lt_of_le_of_lt Nat.and_le_right (by norm_num)

/-- Absorbing a byte keeps the CRC within 16 bits. -/
theorem crc16Step_lt (c b : Nat) : crc16Step c b < 65536 := by
  rw [crc16Step, show (8 : Nat) = 7 + 1 from rfl, Function.iterate_succ_apply']
  exact crcRound_lt _

/-- Folding CRC steps keeps the accumulator within 16 bits. -/
theorem crc16_foldl_lt :
    ∀ (data : List Nat) (acc : Nat), acc < 65536 →
      List.foldl crc16Step acc data < 65536
  | [], _, h => h
  | b :: t, acc, _ => by
    rw [List.foldl_cons]
    exact crc16_foldl_lt t _ (crc16Step_lt acc b)

/-- The CRC of any byte string fits in 16 bits. -/
theorem crc16_lt (data : List Nat) : crc16 data < 65536 :=
  crc16_foldl_lt data 0xFFFF (by norm_num)

/-- The sync pattern of a well-formed encoding is first found at index 16. -/
theorem findSyncIdx_preSync (s : List Nat) :
    findSyncIdx (PREAMBLE ++ SYNC ++ s) = some 16 := by
  norm_num [findSyncIdx, findSyncAux, PREAMBLE, SYNC]

/-! ## Claim C5: byte-stuffing roundtrip -/

/-- C5: for every byte sequence B,
`Frame._byte_unstuff(Frame._byte_stuff(B)) = B`. -/
theorem stuff_unstuff_roundtrip (B : List Nat) (hB : ∀ b ∈ B, b < 256) :
    byteUnstuff (byteStuff B) = B :=
  byteUnstuff_byteStuff B

/-- Witness for C5 at the byte-stuffing edge-case payload
`b"\x7E\x7D\x00\xFF"`. -/
theorem stuff_unstuff_roundtrip_witness :
    byteUnstuff (byteStuff [0x7E, 0x7D, 0x00, 0xFF]) = [0x7E, 0x7D, 0x00, 0xFF] :=
  stuff_unstuff_roundtrip [0x7E, 0x7D, 0x00, 0xFF] (by decide)

/-! ## Towards C1: small computation lemmas for list access -/

theorem take5_cons (x0 x1 x2 x3 x4 : Nat) (r : List Nat) :
    (x0 :: x1 :: x2 :: x3 :: x4 :: r).take 5 = [x0, x1, x2, x3, x4] := rfl

theorem drop5_cons (x0 x1 x2 x3 x4 : Nat) (r : List Nat) :
    (x0 :: x1 :: x2 :: x3 :: x4 :: r).drop 5 = r := rfl

theorem getD5_0 (x0 x1 x2 x3 x4 : Nat) : [x0, x1, x2, x3, x4].getD 0 0 = x0 := rfl

theorem getD5_1 (x0 x1 x2 x3 x4 : Nat) : [x0, x1, x2, x3, x4].getD 1 0 = x1 := rfl

theorem getD5_2 (x0 x1 x2 x3 x4 : Nat) : [x0, x1, x2, x3, x4].getD 2 0 = x2 := rfl

theorem getD5_3 (x0 x1 x2 x3 x4 : Nat) : [x0, x1, x2, x3, x4].getD 3 0 = x3 := rfl

theorem getD5_4 (x0 x1 x2 x3 x4 : Nat) : [x0, x1, x2, x3, x4].getD 4 0 = x4 := rfl

theorem take2_pair (x y : Nat) : [x, y].take 2 = [x, y] := rfl

theorem getD2_0 (x y : Nat) : [x, y].getD 0 0 = x := rfl

theorem getD2_1 (x y : Nat) : [x, y].getD 1 0 = y := rfl

/-- `FrameType(code(t)) = t`. -/
theorem ofCode_code (t : FrameType) : FrameType.ofCode t.code = some t := by
  cases t <;> rfl

/-- Decoding the unstuffed content+CRC of a well-formed frame parses the
header back, verifies the CRC on the first try, and rebuilds the frame. -/
theorem decodeUnstuffed_wellformed (t : FrameType) (seq : Nat) (payload : List Nat)
    (hseq : seq ≤ 0xFFFF) (hlen : payload.length ≤ MAX_PAYLOAD_SIZE) :
    decodeUnstuffed
      ((t.code :: (le16 seq ++ le16 payload.length ++ payload)) ++
        le16 (crc16 (t.code :: (le16 seq ++ le16 payload.length ++ payload)))) =
      .ok (some ⟨t, seq, payload⟩) := by
  have hmax : MAX_PAYLOAD_SIZE = 64 := rfl
  set C : List Nat := t.code :: (le16 seq ++ le16 payload.length ++ payload) with hC
  set R : List Nat := le16 (crc16 C) with hR
  have hseqp : seq % 256 + 256 * (seq / 256 % 256) = seq := le16_parse (by omega)
  have hlenp : payload.length % 256 + 256 * (payload.length / 256 % 256) =
      payload.length := le16_parse (by omega)
  have hcrcp : crc16 C % 256 + 256 * (crc16 C / 256 % 256) = crc16 C :=
    le16_parse (crc16_lt C)
  have hRlen : R.length = 2 := by rw [hR]; rfl
  have hshape : C ++ R = t.code :: seq % 256 :: seq / 256 % 256 ::
      payload.length % 256 :: payload.length / 256 % 256 :: (payload ++ R) := by
    simp [hC, le16]
  rw [hshape]
  set A : List Nat := t.code :: seq % 256 :: seq / 256 % 256 ::
      payload.length % 256 :: payload.length / 256 % 256 :: (payload ++ R) with hA
  have hA2 : A = ([t.code, seq % 256, seq / 256 % 256, payload.length % 256,
      payload.length / 256 % 256] ++ payload) ++ R := by simp [hA]
  have hAlen : A.length = 7 + payload.length := by
    rw [hA]; simp [hRlen]; omega
  have hdropR : A.drop (5 + payload.length) = R := by
    rw [hA2]
    exact List.drop_left'
      (by simp only [List.length_append, List.length_cons, List.length_nil])
  have htakeC : A.take (5 + payload.length) =
      [t.code, seq % 256, seq / 256 % 256, payload.length % 256,
        payload.length / 256 % 256] ++ payload := by
    rw [hA2]
    exact List.take_left'
      (by simp only [List.length_append, List.length_cons, List.length_nil])
  have hCeq : [t.code, seq % 256, seq / 256 % 256, payload.length % 256,
      payload.length / 256 % 256] ++ payload = C := by simp [hC, le16]
  simp only [decodeUnstuffed, sliceLE16, hA]
  rw [← hA]
  rw [take5_cons, drop5_cons, getD5_0, getD5_1, getD5_2, getD5_3, getD5_4,
    hseqp, hlenp]
  rw [if_neg (by rw [hAlen]; omega)]
  rw [if_neg (by rw [hmax]; omega)]
  rw [if_neg (by rw [hAlen]; omega)]
  rw [hdropR, htakeC, hCeq, hR]
  simp only [le16, take2_pair, getD2_0, getD2_1, hcrcp]
  rw [if_neg (fun h => h rfl)]
  rw [List.take_left' rfl]
  simp only [finishDecode, ofCode_code, mkFrame]
  rw [if_neg (by rw [hmax]; omega), if_neg (by omega)]
  rfl

/-- Any encoding starts with preamble and sync, so frame content is found
at index 18. -/
theorem findFrameStart_preSync (s : List Nat) :
    findFrameStart (PREAMBLE ++ SYNC ++ s) = some 18 := by
  rw [findFrameStart, findSyncIdx_preSync]

/-- Dropping the preamble and sync of an encoding leaves the stuffed body. -/
theorem drop18_preSync (s : List Nat) : (PREAMBLE ++ SYNC ++ s).drop 18 = s :=
  List.drop_left' rfl

/-- C1: for every frame with payload at most `MAX_PAYLOAD_SIZE` bytes and
sequence in [0, 0xFFFF], `Frame.decode (Frame.encode F)` returns `F`
(and in particular raises no exception). -/
theorem decode_encode_roundtrip (f : Frame) (hseq : f.sequence ≤ 0xFFFF)
    (hlen : f.payload.length ≤ MAX_PAYLOAD_SIZE)
    (hbytes : ∀ b ∈ f.payload, b < 256) :
    Frame.decode f.encode = .ok (some f) := by
  obtain ⟨t, seq, payload⟩ := f
  simp only [Frame.encode, Frame.content] at *
  set core : List Nat := (t.code :: (le16 seq ++ le16 payload.length ++ payload)) ++
    le16 (crc16 (t.code :: (le16 seq ++ le16 payload.length ++ payload))) with hcore
  have hcorelen : core.length = 7 + payload.length := by
    simp [hcore, le16]; omega
  have hstufflen : 7 ≤ (byteStuff core).length := by
    have h1 := length_le_byteStuff core
    omega
  simp only [Frame.decode, findFrameStart_preSync, drop18_preSync]
  rw [decodeFrom, if_neg (by omega), byteUnstuff_byteStuff]
  exact decodeUnstuffed_wellformed t seq payload hseq hlen

/-- Witness for C1 at the byte-stuffing edge case
DATA(seq=1, payload=b"\x7E\x7D\x00\xFF"). -/
theorem decode_encode_roundtrip_witness :
    Frame.decode (Frame.encode ⟨.data, 1, [0x7E, 0x7D, 0x00, 0xFF]⟩) =
      .ok (some ⟨.data, 1, [0x7E, 0x7D, 0x00, 0xFF]⟩) :=
  decode_encode_roundtrip ⟨.data, 1, [0x7E, 0x7D, 0x00, 0xFF]⟩
    (by decide) (by decide) (by decide)

/-! ## Claim C7: the DATA(seq=42, payload=b"Hello, World!") fixture

The encoding is `16 (preamble) + 2 (sync) + (1+2+2+13+2) (stuffed region,
no byte needs stuffing) = 38` bytes; the spec total of 39 double-counts
the type byte. -/

set_option maxRecDepth 4000 in
/-- C7 counterexample: the encoding of DATA(seq=42, b"Hello, World!") is
not 39 bytes long. -/
theorem encode_hello_world_length_ne_39 :
    (Frame.encode ⟨.data, 42,
      [0x48, 0x65, 0x6C, 0x6C, 0x6F, 0x2C, 0x20, 0x57, 0x6F, 0x72, 0x6C, 0x64,
       0x21]⟩).length ≠ 39 := by decide

set_option maxRecDepth 40000 in
/-- C7 amended: the encoding is exactly 38 bytes (its stuffed region needs
no stuffing), and decoding returns a frame equal to the input (which
implies the CRC verified on the unchanged bytes). -/
theorem encode_hello_world_roundtrip :
    (Frame.encode ⟨.data, 42,
      [0x48, 0x65, 0x6C, 0x6C, 0x6F, 0x2C, 0x20, 0x57, 0x6F, 0x72, 0x6C, 0x64,
       0x21]⟩).length = 38 ∧
    Frame.decode (Frame.encode ⟨.data, 42,
      [0x48, 0x65, 0x6C, 0x6C, 0x6F, 0x2C, 0x20, 0x57, 0x6F, 0x72, 0x6C, 0x64,
       0x21]⟩) =
      .ok (some ⟨.data, 42,
        [0x48, 0x65, 0x6C, 0x6C, 0x6F, 0x2C, 0x20, 0x57, 0x6F, 0x72, 0x6C, 0x64,
         0x21]⟩) := by decide

/-! ## Claim C2: single-bit error correction

For the representative frame DATA(seq=1, payload=b"H") the encoding is 26
bytes (no byte needs stuffing); its content+CRC region occupies bytes
18..25, i.e. bits 144..207.  Flipping one bit of the 16-bit length field
(bits 168..183) makes the decoder mis-parse the payload extent and reject
the frame (`return None`) before any CRC correction can see the error, so
the claim fails there; every flip outside the length field is recovered. -/

set_option maxRecDepth 40000 in
/-- C2 counterexample: flipping bit 175 (bit 7 of the length low byte) of
`encode(DATA(seq=1, b"H"))` makes `Frame.decode` return `None`, not the
original frame. -/
theorem single_bit_flip_not_recovered :
    Frame.decode (flipBit (Frame.encode ⟨.data, 1, [0x48]⟩) 175) = .ok none ∧
    (Except.ok none : Except Unit (Option Frame)) ≠
      .ok (some ⟨.data, 1, [0x48]⟩) := by decide

set_option maxRecDepth 100000 in
/-- C2 amended: for the frame DATA(seq=1, b"H"), flipping any single bit of
the encoded content+CRC region (bits 144..207) outside the length field
(bits 168..183) still decodes to the original frame. -/
theorem single_bit_flip_recovered_outside_length_field :
    ∀ i : Nat, i < 208 → 144 ≤ i → ¬ (168 ≤ i ∧ i < 184) →
      Frame.decode (flipBit (Frame.encode ⟨.data, 1, [0x48]⟩) i) =
        .ok (some ⟨.data, 1, [0x48]⟩) := by decide

set_option maxRecDepth 40000 in
/-- Witness for the amended C2 at bit 144 (bit 0 of the type byte). -/
theorem single_bit_flip_recovered_witness :
    Frame.decode (flipBit (Frame.encode ⟨.data, 1, [0x48]⟩) 144) =
      .ok (some ⟨.data, 1, [0x48]⟩) :=
  single_bit_flip_recovered_outside_length_field 144 (by decide) (by decide)
    (by decide)

/-! ## Towards C9: byte-range preservation and totality of decode -/

/-- `getD _ 0` of a byte list is a byte (default 0 included). -/
theorem getD_lt_256 {l : List Nat} (h : ∀ b ∈ l, b < 256) (i : Nat) :
    l.getD i 0 < 256 := by
  rcases Nat.lt_or_ge i l.length with hi | hi
  · rw [List.getD_eq_getElem l 0 hi]
    exact h _ (List.getElem_mem hi)
  · rw [List.getD_eq_default l 0 hi]
    norm_num

/-- Unstuffing a byte list yields bytes. -/
theorem byteUnstuff_lt_256 :
    ∀ l : List Nat, (∀ b ∈ l, b < 256) → ∀ c ∈ byteUnstuff l, c < 256
  | [], _, c, hc => by simp [byteUnstuff] at hc
  | [b], h, c, hc => by
    simp only [byteUnstuff, List.mem_singleton] at hc
    subst hc
    exact h c (by simp)
  | b :: x :: rest, h, c, hc => by
    rw [byteUnstuff] at hc
    by_cases hb : b = ESCAPE_BYTE
    · rw [if_pos hb] at hc
      rcases List.mem_cons.mp hc with hc1 | hc2
      · subst hc1
        exact @Nat.xor_lt_two_pow x 0x20 8 (h x (by simp)) (by norm_num)
      · exact byteUnstuff_lt_256 rest
          (fun a ha => h a (List.mem_cons_of_mem b (List.mem_cons_of_mem x ha))) c hc2
    · rw [if_neg hb] at hc
      rcases List.mem_cons.mp hc with hc1 | hc2
      · subst hc1
        exact h c (by simp)
      · exact byteUnstuff_lt_256 (x :: rest)
          (fun a ha => h a (List.mem_cons_of_mem b ha)) c hc2

/-- Flipping one bit of a byte list yields bytes. -/
theorem flipBit_lt_256 {l : List Nat} (h : ∀ b ∈ l, b < 256) (bp : Nat) :
    ∀ c ∈ flipBit l bp, c < 256 := by
  intro c hc
  rw [flipBit] at hc
  rcases List.mem_or_eq_of_mem_set hc with h1 | h2
  · exact h c h1
  · subst h2
    have hg : l.getD (bp / 8) 0 < 256 := getD_lt_256 h _
    have hs : (1 <<< (bp % 8)) < 256 := by
      rw [Nat.shiftLeft_eq, Nat.one_mul]
      calc 2 ^ (bp % 8) ≤ 2 ^ 7 :=
            Nat.pow_le_pow_right (by norm_num) (by omega)
        _ < 256 := by norm_num
    exact @Nat.xor_lt_two_pow _ _ 8 hg hs

/-- A successful 1-bit correction returns bytes. -/
theorem tryCorrect1bit_lt_256 {fd : List Nat} {cl : Nat} {c : List Nat}
    (hfd : ∀ b ∈ fd, b < 256) (h : tryCorrect1bit fd cl = some c) :
    ∀ b ∈ c, b < 256 := by
  rw [tryCorrect1bit] at h
  obtain ⟨bp, _, hsome⟩ := List.exists_of_findSome?_eq_some h
  simp only [] at hsome
  split at hsome
  · cases hsome
    exact flipBit_lt_256 hfd bp
  · cases hsome

/-- A successful 2-bit correction returns bytes. -/
theorem tryCorrect2bit_lt_256 {fd : List Nat} {cl : Nat} {c : List Nat}
    (hfd : ∀ b ∈ fd, b < 256) (h : tryCorrect2bit fd cl = some c) :
    ∀ b ∈ c, b < 256 := by
  rw [tryCorrect2bit] at h
  obtain ⟨i, _, hsome⟩ := List.exists_of_findSome?_eq_some h
  obtain ⟨j, _, hsome2⟩ := List.exists_of_findSome?_eq_some hsome
  simp only [] at hsome2
  split at hsome2
  · cases hsome2
    exact flipBit_lt_256 (flipBit_lt_256 hfd i) j
  · cases hsome2

/-- `finishDecode` never raises when the sequence and payload fit the
frame invariants. -/
theorem finishDecode_ok (ftCode seq : Nat) (payload : List Nat)
    (hseq : seq ≤ 0xFFFF) (hp : payload.length ≤ MAX_PAYLOAD_SIZE) :
    ∃ r, finishDecode ftCode seq payload = .ok r := by
  rcases hf : FrameType.ofCode ftCode with _ | t
  · simp only [finishDecode, hf]
    exact ⟨none, rfl⟩
  · simp only [finishDecode, hf]
    rw [mkFrame, if_neg (by omega), if_neg (by omega)]
    exact ⟨some ⟨t, seq, payload⟩, rfl⟩

/-- `finishCorrected` never raises on byte input with an in-range length. -/
theorem finishCorrected_ok (c : List Nat) (L : Nat)
    (hc : ∀ b ∈ c, b < 256) (hL : L ≤ MAX_PAYLOAD_SIZE) :
    ∃ r, finishCorrected c L = .ok r := by
  rw [finishCorrected]
  apply finishDecode_ok
  · have h1 : (c.take 5).getD 1 0 < 256 :=
      getD_lt_256 (fun b hb => hc b (List.mem_of_mem_take hb)) 1
    have h2 : (c.take 5).getD 2 0 < 256 :=
      getD_lt_256 (fun b hb => hc b (List.mem_of_mem_take hb)) 2
    omega
  · exact Nat.le_trans (List.length_take_le L _) hL

/-- The CRC-mismatch fallback never raises on byte input with an in-range
length. -/
theorem correctAndFinish_ok (fd : List Nat) (L : Nat)
    (hfd : ∀ b ∈ fd, b < 256) (hL : L ≤ MAX_PAYLOAD_SIZE) :
    ∃ r, correctAndFinish fd L = .ok r := by
  rw [correctAndFinish]
  rcases h1 : tryCorrect1bit fd (5 + L) with _ | c1
  · rcases h2 : tryCorrect2bit fd (5 + L) with _ | c2
    · exact ⟨none, rfl⟩
    · exact finishCorrected_ok c2 L (tryCorrect2bit_lt_256 hfd h2) hL
  · exact finishCorrected_ok c1 L (tryCorrect1bit_lt_256 hfd h1) hL

/-- `decodeUnstuffed` never raises on byte input. -/
theorem decodeUnstuffed_ok (u : List Nat) (hu : ∀ b ∈ u, b < 256) :
    ∃ r, decodeUnstuffed u = .ok r := by
  have hmax : MAX_PAYLOAD_SIZE = 64 := rfl
  have htb : ∀ b ∈ u.take 5, b < 256 := fun b hb => hu b (List.mem_of_mem_take hb)
  simp only [decodeUnstuffed]
  split
  · exact ⟨none, rfl⟩
  split
  · exact ⟨none, rfl⟩
  next hL =>
    split
    · exact ⟨none, rfl⟩
    split
    · apply correctAndFinish_ok
      · exact fun b hb => hu b (List.mem_of_mem_take hb)
      · omega
    · apply finishDecode_ok
      · have h1 : (u.take 5).getD 1 0 < 256 := getD_lt_256 htb 1
        have h2 : (u.take 5).getD 2 0 < 256 := getD_lt_256 htb 2
        omega
      · exact Nat.le_trans (List.length_take_le _ _) (by omega)

/-- C9: `Frame.decode` is total on byte strings: it always returns
(`Frame` or `None`) and never raises an uncaught exception. -/
theorem decode_never_raises (data : List Nat) (hdata : ∀ b ∈ data, b < 256) :
    ∃ r, Frame.decode data = .ok r := by
  rw [Frame.decode]
  split
  · exact ⟨none, rfl⟩
  · rw [decodeFrom]
    split
    · exact ⟨none, rfl⟩
    · exact decodeUnstuffed_ok _
        (byteUnstuff_lt_256 _ fun b hb => hdata b (List.mem_of_mem_drop hb))

/-- Witness for C9 on a concrete non-frame byte string (truncated sync). -/
theorem decode_never_raises_witness :
    ∃ r, Frame.decode [0x7E, 0x7E, 0x01] = .ok r :=
  decode_never_raises [0x7E, 0x7E, 0x01] (by decide)

/-! ## Claim C3: Stop-and-Wait handling of a wrong-sequence ACK

In `_send_fragment` an ACK whose sequence differs from the outstanding one
is not treated as success, but the loop body then falls through to the next
`for` iteration: the fragment is retransmitted immediately and a retry
attempt is consumed, rather than continuing to wait within the same timeout
window as the spec describes. -/

/-- C3 counterexample: with the outstanding sequence 5 and the response
trace [ACK(6), ACK(5)], the sender transmits twice and books one
retransmission — the wrong-sequence ACK consumed a retry attempt instead of
being waited out. -/
theorem wrong_seq_ack_consumes_retry :
    sendFragment 5 3 [some ⟨.ack, 6, []⟩, some ⟨.ack, 5, []⟩]
        TransportStats.mkZero =
      (true, ⟨2, 0, 1, 0, 1, 0⟩) ∧
    (⟨2, 0, 1, 0, 1, 0⟩ : TransportStats).retransmissions ≠ 0 := by decide

/-- C3 amended: an ACK with a non-matching sequence is ignored as an
acknowledgment (it never completes the send), but the sender immediately
moves on to the next transmission attempt: the frame counter is bumped, a
retransmission is booked for every attempt after the first, and the
remaining trace is handled with one fewer attempt left. -/
theorem wrong_seq_ack_falls_through (seq a : Nat) (ha : a ≠ seq)
    (rest : List (Option Frame)) (attempt n : Nat) (st : TransportStats) :
    sendFragmentGo seq attempt (n + 1) (some ⟨.ack, a, []⟩ :: rest) st =
      sendFragmentGo seq (attempt + 1) n rest
        { st with
          framesSent := st.framesSent + 1
          retransmissions :=
            if 0 < attempt then st.retransmissions + 1
            else st.retransmissions } := by
  rw [sendFragmentGo]
  simp [ha]

/-- Witness for the amended C3 at seq=5, wrong ACK seq=6, first attempt. -/
theorem wrong_seq_ack_falls_through_witness :
    sendFragmentGo 5 0 4 [some ⟨.ack, 6, []⟩, some ⟨.ack, 5, []⟩]
        TransportStats.mkZero =
      sendFragmentGo 5 1 3 [some ⟨.ack, 5, []⟩]
        { TransportStats.mkZero with
          framesSent := TransportStats.mkZero.framesSent + 1
          retransmissions :=
            if 0 < 0 then TransportStats.mkZero.retransmissions + 1
            else TransportStats.mkZero.retransmissions } :=
  wrong_seq_ack_falls_through 5 6 (by decide)
    [some ⟨.ack, 5, []⟩] 0 3 TransportStats.mkZero

/-! ## Claim C4: reorder-queue order across `wait_for_frame` -/

/-- C4 counterexample: queue `[DATA(0), ACK(1), DATA(2)]`, waiting for an
ACK.  The two non-matching frames DATA(0), DATA(2) were inserted in that
order, but after the scan the next consumer sees `[DATA(2), DATA(0)]`: the
scanned-and-re-queued DATA(0) now sits behind the never-dequeued DATA(2). -/
theorem reorder_queue_order_violated :
    waitScanQueue (fun f => frameMatches f (some .ack) none)
        [⟨.data, 0, []⟩, ⟨.ack, 1, []⟩, ⟨.data, 2, []⟩] =
      (some ⟨.ack, 1, []⟩, [⟨.data, 2, []⟩, ⟨.data, 0, []⟩]) ∧
    [(⟨.data, 2, []⟩ : Frame), ⟨.data, 0, []⟩] ≠
      [⟨.data, 0, []⟩, ⟨.data, 2, []⟩] := by decide

/-- The scan loop with no matching frame restores the queue exactly. -/
theorem scanQueueGo_no_match (p : Frame → Bool) :
    ∀ (q acc : List Frame), (∀ f ∈ q, p f = false) →
      scanQueueGo p acc q = (none, acc ++ q)
  | [], acc, _ => by simp [scanQueueGo]
  | f :: rest, acc, h => by
    rw [scanQueueGo, if_neg (by simp [h f (by simp)])]
    rw [scanQueueGo_no_match p rest (acc ++ [f])
      (fun g hg => h g (List.mem_cons_of_mem f hg))]
    simp

/-- The scan loop that finds a match returns it and leaves the unscanned
suffix in front of the re-queued non-matching prefix. -/
theorem scanQueueGo_match (p : Frame → Bool) :
    ∀ (pre : List Frame) (m : Frame) (suf acc : List Frame),
      (∀ f ∈ pre, p f = false) → p m = true →
      scanQueueGo p acc (pre ++ m :: suf) = (some m, suf ++ (acc ++ pre))
  | [], m, suf, acc, _, hm => by
    rw [List.nil_append, scanQueueGo, if_pos hm]
    simp
  | f :: pre, m, suf, acc, h, hm => by
    rw [List.cons_append, scanQueueGo, if_neg (by simp [h f (by simp)])]
    rw [scanQueueGo_match p pre m suf (acc ++ [f])
      (fun g hg => h g (List.mem_cons_of_mem f hg)) hm]
    simp

/-- C4 amended: when no queued frame matches, `wait_for_frame` restores the
queue in its original order; when a match is found mid-queue, the next
consumer sees the unscanned suffix first and the re-queued non-matching
prefix after it (so the relative order of non-matching frames straddling
the match is reversed, not preserved). -/
theorem wait_for_frame_queue_order (p : Frame → Bool) :
    (∀ q : List Frame, (∀ f ∈ q, p f = false) →
      waitScanQueue p q = (none, q)) ∧
    (∀ (pre suf : List Frame) (m : Frame),
      (∀ f ∈ pre, p f = false) → p m = true →
      waitScanQueue p (pre ++ m :: suf) = (some m, suf ++ pre)) := by
  constructor
  · intro q h
    rw [waitScanQueue, scanQueueGo_no_match p q [] h]
    simp
  · intro pre suf m h hm
    rw [waitScanQueue, scanQueueGo_match p pre m suf [] h hm]
    simp

/-- Witness for C4 on the counterexample queue: the ACK is found and the
queue becomes suffix-then-prefix. -/
theorem wait_for_frame_queue_order_witness :
    waitScanQueue (fun f => frameMatches f (some .ack) none)
        ([⟨.data, 0, []⟩] ++ ⟨.ack, 1, []⟩ :: [⟨.data, 2, []⟩]) =
      (some ⟨.ack, 1, []⟩, [⟨.data, 2, []⟩] ++ [⟨.data, 0, []⟩]) :=
  (wait_for_frame_queue_order (fun f => frameMatches f (some .ack) none)).2
    [⟨.data, 0, []⟩] [⟨.data, 2, []⟩] ⟨.ack, 1, []⟩ (by decide) (by decide)

/-! ## Claim C6: send/receive only while ESTABLISHED -/

/-- C6: in any state other than ESTABLISHED, `Session.send` returns `False`
and `Session.receive` returns `None` without invoking the transport and
without changing session or transport state; in ESTABLISHED both delegate
to the transport. -/
theorem send_receive_established_only {τ : Type} (st : SessionState)
    (tsend : τ → τ × Bool) (trecv : τ → τ × Option (List Nat)) (tr : τ) :
    (st ≠ SessionState.established →
      sessionSend st tsend tr = (false, st, tr, false) ∧
      sessionReceive st trecv tr = (none, st, tr, false)) ∧
    (st = SessionState.established →
      sessionSend st tsend tr = ((tsend tr).2, st, (tsend tr).1, true) ∧
      sessionReceive st trecv tr = ((trecv tr).2, st, (trecv tr).1, true)) := by
  constructor
  · intro h
    constructor <;> simp [sessionSend, sessionReceive, h]
  · intro h
    constructor <;> simp [sessionSend, sessionReceive, h]

/-- Witness for C6 in the CLOSED state with a concrete transport. -/
theorem send_receive_established_only_witness :
    sessionSend SessionState.closed (fun n : Nat => (n + 1, true)) 0 =
      (false, SessionState.closed, 0, false) ∧
    sessionReceive SessionState.closed (fun n : Nat => (n + 1, some [])) 0 =
      (none, SessionState.closed, 0, false) :=
  (send_receive_established_only SessionState.closed
    (fun n : Nat => (n + 1, true)) (fun n : Nat => (n + 1, some [])) 0).1
    (by decide)

/-! ## Claim C8: short buffers demodulate to the empty byte string -/

/-- C8: any sample buffer shorter than 8 bit-periods demodulates to `b''`,
for every demodulator configuration and every DSP body. -/
theorem demodulate_short_buffer {α : Type} (d : AFSKDemodulator)
    (pipeline : List α → List Nat) (samples : List α)
    (h : samples.length < d.samplesPerBit * 8) :
    d.demodulate pipeline samples = [] := by
  rw [AFSKDemodulator.demodulate, if_pos h]

/-- Witness for C8 at the reference 48000 Hz / 300 baud configuration with
an empty buffer and a non-trivial body. -/
theorem demodulate_short_buffer_witness :
    AFSKDemodulator.demodulate ⟨48000, 1200, 2200, 300⟩
      (fun _ : List Nat => [0xAA]) [] = [] :=
  demodulate_short_buffer ⟨48000, 1200, 2200, 300⟩
    (fun _ : List Nat => [0xAA]) [] (by decide)

/-! ## Claim C10: handshake postconditions

The claim quantifies over every call of `connect()` / `accept()`, but both
refuse with `False` and an unchanged state when called in a state other
than CLOSED, so a connect on an ESTABLISHED session returns `False` while
the state stays ESTABLISHED (not CLOSED).  Starting from CLOSED the claimed
postcondition does hold. -/

/-- C10 counterexample: `connect()` on an ESTABLISHED session returns
`False` yet leaves the state ESTABLISHED, which is not CLOSED. -/
theorem connect_non_closed_counterexample :
    sessionConnect 5 .established [true] ⟨3, 4, TransportStats.mkZero⟩ =
      (false, .established, ⟨3, 4, TransportStats.mkZero⟩) ∧
    SessionState.established ≠ SessionState.closed := by decide

/-- Every run of the connect retry loop either establishes with a freshly
reset transport or ends closed with the transport untouched. -/
theorem connectGo_outcomes :
    ∀ (n : Nat) (responses : List Bool) (tr : ReliableTransport),
      connectGo n responses tr = (true, .established, ⟨0, 0, TransportStats.mkZero⟩) ∨
      connectGo n responses tr = (false, .closed, tr)
  | 0, _, tr => Or.inr rfl
  | n + 1, responses, tr => by
    rw [connectGo]
    by_cases h : responses.headD false = true
    · rw [if_pos h]
      exact Or.inl rfl
    · rw [if_neg h]
      exact connectGo_outcomes n responses.tail tr

/-- C10 amended: when called in state CLOSED, `connect()` and `accept()`
return with state ESTABLISHED and transport counters `tx_seq = rx_seq = 0`
exactly when the result is `True`, and with state CLOSED and the transport
untouched when the result is `False`; the transient states SYN_SENT and
SYN_RECEIVED never persist past the return.  (Called in any other state
they return `False` leaving that state unchanged.) -/
theorem handshake_outcomes (retries : Nat) (responses : List Bool)
    (gotSyn gotAck : Bool) (tr : ReliableTransport) :
    (sessionConnect retries .closed responses tr =
        (true, .established, ⟨0, 0, TransportStats.mkZero⟩) ∨
      sessionConnect retries .closed responses tr = (false, .closed, tr)) ∧
    (sessionAccept .closed gotSyn gotAck tr =
        (true, .established, ⟨0, 0, TransportStats.mkZero⟩) ∨
      sessionAccept .closed gotSyn gotAck tr = (false, .closed, tr)) := by
  constructor
  · rw [sessionConnect, if_neg (by simp)]
    exact connectGo_outcomes retries responses tr
  · rw [sessionAccept, if_neg (by simp)]
    cases gotSyn
    · rw [if_neg (by simp)]
      exact Or.inr rfl
    · rw [if_pos rfl]
      cases gotAck
      · rw [if_neg (by simp)]
        exact Or.inr rfl
      · rw [if_pos rfl]
        exact Or.inl rfl

end Modumb

